import Mathlib

/-!
Shallow embedding of the wiringx-rs pin API (src/wiringx/src/gpio.rs and
src/wiringx/src/pwm.rs) and proofs about its registry, PWM state machine
and digital pin operations.

The hardware access layer (wiringXPWMSetPeriod, wiringXPWMSetDuty,
wiringXPWMSetPolarity, wiringXPWMEnable, digitalRead, digitalWrite,
waitForInterrupt, wiringXISR) is external C code; it is modelled by an
oracle `Oracle : Nat -> Int` giving the status returned by the k-th
hardware call issued inside one API operation, together with an explicit
trace (`List HwCall`) of the calls the operation issued, in order.
-/

namespace WiringxRs

/-- Digital logic level (gpio.rs, `enum Value { Low = 0, High = 1 }`). -/
inductive Value
  | Low
  | High
deriving DecidableEq, Repr

/-- `Value::opposite` (gpio.rs lines 143-148). -/
def Value.opposite : Value → Value
  | .Low => .High
  | .High => .Low

/-- Numeric encoding sent to `digitalWrite`: wiringX `digital_value_t`
has `LOW = 0`, `HIGH = 1`. -/
def Value.code : Value → ℤ
  | .Low => 0
  | .High => 1

/-- PWM polarity (pwm.rs, `enum Polarity { Normal = 0, Inversed = 1 }`). -/
inductive Polarity
  | Normal
  | Inversed
deriving DecidableEq, Repr

/-- The `repr(i32)` discriminant used in `polarity as i32`. -/
def Polarity.code : Polarity → ℤ
  | .Normal => 0
  | .Inversed => 1

/-- Interrupt trigger mode (gpio.rs, `enum IsrMode`). -/
inductive IsrMode
  | Unknown
  | Rising
  | Falling
  | Both
  | None
deriving DecidableEq, Repr

/-- The numeric codes of `IsrMode` (gpio.rs lines 157-163). -/
def IsrMode.code : IsrMode → ℤ
  | .Unknown => 0
  | .Rising => 2
  | .Falling => 4
  | .Both => 8
  | .None => 16

/-- Error enum of the crate (`WiringXError`): the variants the two pin
modules return. -/
inductive WiringXError
  | PinUsed
  | Unsupported
  | InvalidArgument
  | Other (msg : String)
deriving DecidableEq, Repr

/-- `InterruptTimeOut` (gpio.rs line 153): the dedicated error type of
`wait_for_interrupt`, a distinct type from `WiringXError`, so a timeout
is distinguishable from every other failure by its type alone. -/
inductive InterruptTimeOut
  | mk
deriving DecidableEq, Repr

/-- One hardware call, with the arguments the Rust code passes. -/
inductive HwCall
  | setPeriod (pin ns : ℤ)
  | setDuty (pin ns : ℤ)
  | setPolarity (pin pol : ℤ)
  | pwmEnable (pin v : ℤ)
  | digitalRead (pin : ℤ)
  | digitalWrite (pin v : ℤ)
  | waitForInterrupt (pin ms : ℤ)
  | isr (pin mode : ℤ)
deriving DecidableEq, Repr

/-- Hardware status oracle: the integer status the hardware returns for
the k-th call an operation issues (the hardware may answer anything at
each call, so quantifying over oracles covers every hardware behaviour). -/
def Oracle : Type := ℕ → ℤ

/-- Model of Rust `f32` values as the duty-cycle code can observe them:
NaN, the two infinities, and finite values represented exactly as
rationals (IEEE rounding of arithmetic is not modelled; no claim here
depends on it). -/
inductive F
  | nan
  | inf (pos : Bool)
  | fin (q : ℚ)
deriving DecidableEq, Repr

/-- Rust `f32::clamp(0.0, 1.0)`: `if self < min { min } else if self > max
{ max } else { self }`; every comparison with NaN is false, so NaN is
returned unchanged. -/
def F.clamp01 : F → F
  | .nan => .nan
  | .inf true => .fin 1
  | .inf false => .fin 0
  | .fin q => .fin (if q < 0 then 0 else if 1 < q then 1 else q)

/-- Whether a modelled float is a finite value in the closed interval
[0, 1]. -/
def F.in01 : F → Bool
  | .fin q => decide (0 ≤ q ∧ q ≤ 1)
  | _ => false

/-- `Duration::mul_f32` on a duration of `d` nanoseconds, modelled with
exact rational arithmetic, truncated to whole nanoseconds. `none` is a
Rust panic: `Duration::from_secs_f64` panics when the factor is NaN,
infinite, or negative. -/
def mulF (d : ℕ) : F → Option ℕ
  | .nan => none
  | .inf _ => none
  | .fin q => if q < 0 then none else some (((d : ℤ) * q.num / (q.den : ℤ)).toNat)

/-- The `as i64` cast applied to `Duration::as_nanos()` (a `u128`):
wrapping conversion to a signed 64-bit value. -/
def toI64 (n : ℕ) : ℤ :=
  let m : ℕ := n % 2 ^ 64
  if m < 2 ^ 63 then (m : ℤ) else (m : ℤ) - 2 ^ 64

/-- The `as i32` cast applied to `Duration::as_millis()` (a `u128`):
wrapping conversion to a signed 32-bit value. -/
def toI32 (n : ℕ) : ℤ :=
  let m : ℕ := n % 2 ^ 32
  if m < 2 ^ 31 then (m : ℤ) else (m : ℤ) - 2 ^ 32

/-- Outcome of a fallible Rust operation: normal return, error return, or
panic (unwinding before any state update). -/
inductive Outcome (α : Type)
  | ok (a : α)
  | err (e : WiringXError)
  | panic
deriving DecidableEq, Repr

/-- The `PwmPin` struct (pwm.rs lines 44-52): pin number plus the cached
period (as nanoseconds), duty-cycle fraction and polarity. The shared
registry (`handles`) is threaded separately as a `Finset ℤ`. -/
structure PwmPin where
  number : ℤ
  period : ℕ
  duty_cycle : F
  polarity : Polarity
deriving DecidableEq, Repr

/-- Lines 80-109 of `PwmPin::new`: the tail of construction after the
period has been configured. `k` is the index of the next hardware call,
`tr` the trace issued so far. Clamps the duty cycle, sets duty, polarity,
enables output, and only then inserts the pin number into the registry. -/
def PwmPin.finishNew (reg : Finset ℤ) (o : Oracle) (k : ℕ) (tr : List HwCall)
    (number : ℤ) (period : ℕ) (duty_cycle : F) (polarity : Polarity) :
    Outcome PwmPin × Finset ℤ × List HwCall :=
  let d := duty_cycle.clamp01
  match mulF period d with
  | none => (.panic, reg, tr)
  | some n =>
    let c1 := HwCall.setDuty number (toI64 n)
    if o k < 0 then (.err .InvalidArgument, reg, tr ++ [c1])
    else
      let c2 := HwCall.setPolarity number polarity.code
      if o (k + 1) < 0 then (.err .InvalidArgument, reg, tr ++ [c1, c2])
      else
        let c3 := HwCall.pwmEnable number 1
        if o (k + 2) < 0 then (.err .InvalidArgument, reg, tr ++ [c1, c2, c3])
        else (.ok ⟨number, period, d, polarity⟩, insert number reg,
              tr ++ [c1, c2, c3])

/-- `PwmPin::new` (pwm.rs lines 55-110). Returns the outcome, the registry
afterwards, and the trace of hardware calls issued, in order. The registry
is consulted first (`contains`), the period is set with a duty-to-zero
fallback, and the pin number is inserted only after every hardware call
has succeeded. -/
def PwmPin.new (reg : Finset ℤ) (o : Oracle) (number : ℤ) (period : ℕ)
    (duty_cycle : F) (polarity : Polarity) :
    Outcome PwmPin × Finset ℤ × List HwCall :=
  if number ∈ reg then (.err .PinUsed, reg, [])
  else
    let c0 := HwCall.setPeriod number (toI64 period)
    if o 0 < 0 then
      let c1 := HwCall.setDuty number (toI64 0)
      if o 1 < 0 then (.err .Unsupported, reg, [c0, c1])
      else
        let c2 := HwCall.setPeriod number (toI64 period)
        if o 2 < 0 then (.err .InvalidArgument, reg, [c0, c1, c2])
        else PwmPin.finishNew reg o 3 [c0, c1, c2] number period duty_cycle
          polarity
    else PwmPin.finishNew reg o 1 [c0] number period duty_cycle polarity

/-- `PwmPin::set_period` (pwm.rs lines 113-136): first set the duty pulse
width computed from the cached duty-cycle fraction against the new period,
then set the new period; cache the period only when both calls succeed. -/
def PwmPin.set_period (p : PwmPin) (o : Oracle) (period : ℕ) :
    Outcome Unit × PwmPin × List HwCall :=
  match mulF period p.duty_cycle with
  | none => (.panic, p, [])
  | some n =>
    let c0 := HwCall.setDuty p.number (toI64 n)
    if o 0 < 0 then (.err .InvalidArgument, p, [c0])
    else
      let c1 := HwCall.setPeriod p.number (toI64 period)
      if o 1 < 0 then (.err .InvalidArgument, p, [c0, c1])
      else (.ok (), { p with period := period }, [c0, c1])

/-- `PwmPin::set_duty_cycle` (pwm.rs lines 150-167): clamp to [0, 1],
set the hardware duty to period x fraction, cache on success only. -/
def PwmPin.set_duty_cycle (p : PwmPin) (o : Oracle) (x : F) :
    Outcome Unit × PwmPin × List HwCall :=
  let d := x.clamp01
  match mulF p.period d with
  | none => (.panic, p, [])
  | some n =>
    let c0 := HwCall.setDuty p.number (toI64 n)
    if o 0 < 0 then (.err .InvalidArgument, p, [c0])
    else (.ok (), { p with duty_cycle := d }, [c0])

/-- `PwmPin::set_polarity` (pwm.rs lines 180-190). -/
def PwmPin.set_polarity (p : PwmPin) (o : Oracle) (pol : Polarity) :
    Outcome Unit × PwmPin × List HwCall :=
  let c0 := HwCall.setPolarity p.number pol.code
  if o 0 < 0 then (.err .InvalidArgument, p, [c0])
  else (.ok (), { p with polarity := pol }, [c0])

/-- `Drop for PwmPin` (pwm.rs lines 198-203): remove the pin number from
the registry, then issue a best-effort disable (`wiringXPWMEnable(n, 0)`)
whose status is discarded — the result does not inspect the oracle. -/
def PwmPin.dropHandle (p : PwmPin) (reg : Finset ℤ) (_o : Oracle) :
    Finset ℤ × List HwCall :=
  (reg.erase p.number, [HwCall.pwmEnable p.number 0])

/-- A `Pin<Output>` digital handle (gpio.rs lines 18-22 with `Output`
mode, lines 122-124): the pin number and the cached last-written value
(`mode.value`, default `Low`). The shared registry is threaded
separately. -/
structure OutputPin where
  number : ℤ
  value : Value
deriving DecidableEq, Repr

/-- A `Pin<Input>` digital handle: just the pin number. -/
structure InputPin where
  number : ℤ
deriving DecidableEq, Repr

/-- `Pin::<Output>::write` (gpio.rs lines 43-52): store the value in the
cache, then issue `digitalWrite` with its numeric encoding; the hardware
call returns no status. -/
def OutputPin.write (p : OutputPin) (v : Value) : OutputPin × List HwCall :=
  ({ p with value := v }, [HwCall.digitalWrite p.number v.code])

/-- `Pin::<Output>::read` (gpio.rs lines 61-70): issue `digitalRead` and
map raw result 1 to `High`, everything else to `Low`; the cached value is
not consulted. -/
def OutputPin.read (p : OutputPin) (o : Oracle) : Value × List HwCall :=
  (if o 0 = 1 then .High else .Low, [HwCall.digitalRead p.number])

/-- `Pin::<Output>::toggle` (gpio.rs lines 55-57):
`self.write(self.read().opposite())`. -/
def OutputPin.toggle (p : OutputPin) (o : Oracle) : OutputPin × List HwCall :=
  let r := p.read o
  let w := p.write r.1.opposite
  (w.1, r.2 ++ w.2)

/-- `Pin::<Input>::read` (gpio.rs lines 75-83): issue `digitalRead` and
map raw result 1 to `High`, everything else to `Low`. -/
def InputPin.read (p : InputPin) (o : Oracle) : Value × List HwCall :=
  (if o 0 = 1 then .High else .Low, [HwCall.digitalRead p.number])

/-- `Pin::<Input>::set_isr_mode` (gpio.rs lines 88-98): negative status
maps to `WiringXError::Other`. -/
def InputPin.set_isr_mode (p : InputPin) (o : Oracle) (mode : IsrMode) :
    Except WiringXError Unit × List HwCall :=
  let c0 := HwCall.isr p.number mode.code
  if o 0 < 0 then
    (.error (.Other "Cannot set isr mode of pin to this setting."), [c0])
  else (.ok (), [c0])

/-- `Pin::<Input>::wait_for_interrupt` (gpio.rs lines 103-111): the
timeout is passed as `as_millis() as i32`; a status below 1 (zero or
negative) yields `Err(InterruptTimeOut)`, a positive status yields
`Ok(())`. -/
def InputPin.wait_for_interrupt (p : InputPin) (o : Oracle) (timeout_ms : ℕ) :
    Except InterruptTimeOut Unit × List HwCall :=
  let c0 := HwCall.waitForInterrupt p.number (toI32 timeout_ms)
  if o 0 < 1 then (.error .mk, [c0]) else (.ok (), [c0])

/-- `Drop for Pin<T>` (gpio.rs lines 114-118): remove the pin number from
the registry; no hardware call is made. -/
def dropDigital (reg : Finset ℤ) (number : ℤ) : Finset ℤ :=
  reg.erase number

/-- One mutator call on a `PwmPin`, with the oracle answering its
hardware calls. -/
inductive PwmOp
  | opSetPeriod (d : ℕ)
  | opSetDuty (x : F)
  | opSetPolarity (pol : Polarity)

/-- The pin state after one mutator call (unchanged when the call returned
an error or panicked, since the Rust code writes its cache only after the
hardware call succeeded). -/
def PwmPin.runOp (p : PwmPin) : PwmOp × Oracle → PwmPin
  | (.opSetPeriod d, o) => (p.set_period o d).2.1
  | (.opSetDuty x, o) => (p.set_duty_cycle o x).2.1
  | (.opSetPolarity pol, o) => (p.set_polarity o pol).2.1

/-- The pin state after a sequence of mutator calls. -/
def PwmPin.run (p : PwmPin) (ops : List (PwmOp × Oracle)) : PwmPin :=
  ops.foldl PwmPin.runOp p

/-! ### Helper lemmas -/

theorem finishNew_fst_ne_pinUsed (reg : Finset ℤ) (o : Oracle) (k : ℕ)
    (tr : List HwCall) (n : ℤ) (per : ℕ) (d : F) (pol : Polarity) :
    (PwmPin.finishNew reg o k tr n per d pol).1 ≠ .err .PinUsed := by
  unfold PwmPin.finishNew
  cases hm : mulF per d.clamp01 <;> simp only [hm] <;> (try split_ifs) <;> simp

theorem finishNew_err_reg (reg : Finset ℤ) (o : Oracle) (k : ℕ)
    (tr : List HwCall) (n : ℤ) (per : ℕ) (d : F) (pol : Polarity)
    (e : WiringXError)
    (h : (PwmPin.finishNew reg o k tr n per d pol).1 = .err e) :
    (PwmPin.finishNew reg o k tr n per d pol).2.1 = reg := by
  unfold PwmPin.finishNew at h ⊢
  cases hm : mulF per d.clamp01 <;> simp only [hm] at h ⊢ <;>
    split_ifs at h ⊢ <;> simp_all

theorem new_err_reg (reg : Finset ℤ) (o : Oracle) (n : ℤ) (per : ℕ) (d : F)
    (pol : Polarity) (e : WiringXError)
    (h : (PwmPin.new reg o n per d pol).1 = .err e) :
    (PwmPin.new reg o n per d pol).2.1 = reg := by
  unfold PwmPin.new at h ⊢
  split_ifs at h ⊢ <;> first
    | rfl
    | exact finishNew_err_reg _ _ _ _ _ _ _ _ _ h

theorem clamp01_fin (x : F) (q : ℚ) (h : x.clamp01 = .fin q) :
    0 ≤ q ∧ q ≤ 1 := by
  cases x with
  | nan => simp [F.clamp01] at h
  | inf b => cases b <;> simp [F.clamp01] at h <;> simp [← h]
  | fin r =>
    simp only [F.clamp01, F.fin.injEq] at h
    split_ifs at h <;> rw [← h] <;> constructor <;> linarith

theorem in01_of_mulF_some (x : F) (per n : ℕ)
    (h : mulF per x.clamp01 = some n) : x.clamp01.in01 = true := by
  cases hc : x.clamp01 with
  | nan => rw [hc] at h; simp [mulF] at h
  | inf b => rw [hc] at h; simp [mulF] at h
  | fin q =>
    have := clamp01_fin x q hc
    simp [F.in01, this.1, this.2]

theorem finishNew_ok (reg : Finset ℤ) (o : Oracle) (k : ℕ) (tr : List HwCall)
    (n : ℤ) (per : ℕ) (d : F) (pol : Polarity) (pin : PwmPin)
    (h : (PwmPin.finishNew reg o k tr n per d pol).1 = .ok pin) :
    pin = ⟨n, per, d.clamp01, pol⟩ ∧ ∃ m, mulF per d.clamp01 = some m := by
  unfold PwmPin.finishNew at h
  cases hm : mulF per d.clamp01 <;> simp only [hm] at h <;>
    (try split_ifs at h) <;> simp_all

theorem new_ok_in01 (reg : Finset ℤ) (o : Oracle) (n : ℤ) (per : ℕ) (d : F)
    (pol : Polarity) (pin : PwmPin)
    (h : (PwmPin.new reg o n per d pol).1 = .ok pin) :
    pin.duty_cycle.in01 = true := by
  unfold PwmPin.new at h
  split_ifs at h <;> first
    | (obtain ⟨hpin, m, hm⟩ := finishNew_ok _ _ _ _ _ _ _ _ _ h;
       rw [hpin];
       exact in01_of_mulF_some _ _ _ hm)
    | simp at h

theorem set_period_duty_eq (p : PwmPin) (o : Oracle) (per : ℕ) :
    (p.set_period o per).2.1.duty_cycle = p.duty_cycle := by
  unfold PwmPin.set_period
  cases hm : mulF per p.duty_cycle <;> simp only [hm] <;> (try split_ifs) <;> rfl

theorem set_polarity_duty_eq (p : PwmPin) (o : Oracle) (pol : Polarity) :
    (p.set_polarity o pol).2.1.duty_cycle = p.duty_cycle := by
  unfold PwmPin.set_polarity
  split_ifs <;> rfl

theorem set_duty_cycle_in01 (p : PwmPin) (o : Oracle) (x : F)
    (h : p.duty_cycle.in01 = true) :
    (p.set_duty_cycle o x).2.1.duty_cycle.in01 = true := by
  unfold PwmPin.set_duty_cycle
  cases hm : mulF p.period x.clamp01 with
  | none => simp only [hm]; exact h
  | some m =>
    simp only [hm]
    split_ifs
    · exact h
    · exact in01_of_mulF_some _ _ _ hm

theorem runOp_in01 (p : PwmPin) (op : PwmOp × Oracle)
    (h : p.duty_cycle.in01 = true) : (p.runOp op).duty_cycle.in01 = true := by
  obtain ⟨op, o⟩ := op
  cases op with
  | opSetPeriod d => rw [PwmPin.runOp, set_period_duty_eq]; exact h
  | opSetDuty x => exact set_duty_cycle_in01 _ _ _ h
  | opSetPolarity pol => rw [PwmPin.runOp, set_polarity_duty_eq]; exact h

theorem run_in01 (ops : List (PwmOp × Oracle)) (p : PwmPin)
    (h : p.duty_cycle.in01 = true) : (p.run ops).duty_cycle.in01 = true := by
  induction ops generalizing p with
  | nil => exact h
  | cons op ops ih => exact ih _ (runOp_in01 _ _ h)

theorem new_fst_ne_pinUsed (reg : Finset ℤ) (o : Oracle) (n : ℤ) (per : ℕ)
    (d : F) (pol : Polarity) (hn : n ∉ reg) :
    (PwmPin.new reg o n per d pol).1 ≠ .err .PinUsed := by
  unfold PwmPin.new
  split_ifs <;> first
    | exact absurd (by assumption) hn
    | exact finishNew_fst_ne_pinUsed _ _ _ _ _ _ _ _
    | simp

/-! ### Claim theorems -/

/-- Claim C1: if pin number `n` is already present in the registry set,
`PwmPin::new` returns the pin-in-use error immediately, with no hardware
call (the trace is empty) and the registry unchanged. -/
theorem C1_claimed_pin_fails_fast (reg : Finset ℤ) (o : Oracle) (n : ℤ)
    (per : ℕ) (d : F) (pol : Polarity) (h : n ∈ reg) :
    PwmPin.new reg o n per d pol = (.err .PinUsed, reg, []) := by
  unfold PwmPin.new
  simp [h]

/-- Witness for C1 at pin 5 already registered. -/
theorem C1_claimed_pin_fails_fast_witness :
    (5 : ℤ) ∈ ({5} : Finset ℤ) ∧
    PwmPin.new {5} (fun _ => 0) 5 1000 (F.fin 0) .Normal =
      (.err .PinUsed, {5}, []) :=
  ⟨by decide,
   C1_claimed_pin_fails_fast {5} (fun _ => 0) 5 1000 (F.fin 0) .Normal
     (by decide)⟩

/-- Claim C2: a `PwmPin::new` call on an unclaimed pin `n` that returns an
error (so the error arose after the initial registry check) leaves the
registry without `n`, and a subsequent construction on `n` cannot fail
with the pin-in-use error. In the code the pin number is only inserted
into the registry after every hardware call has succeeded, so no rollback
is ever needed. -/
theorem C2_failed_new_leaves_pin_free (reg : Finset ℤ) (o o₂ : Oracle)
    (n : ℤ) (per per₂ : ℕ) (d d₂ : F) (pol pol₂ : Polarity)
    (e : WiringXError) (hn : n ∉ reg)
    (he : (PwmPin.new reg o n per d pol).1 = .err e) :
    n ∉ (PwmPin.new reg o n per d pol).2.1 ∧
    (PwmPin.new (PwmPin.new reg o n per d pol).2.1 o₂ n per₂ d₂ pol₂).1 ≠
      .err .PinUsed := by
  have hreg := new_err_reg reg o n per d pol e he
  rw [hreg]
  exact ⟨hn, new_fst_ne_pinUsed _ _ _ _ _ _ hn⟩

/-- Witness for C2: pin 5 in an empty registry, with hardware failing
every call, so construction fails with `Unsupported`; pin 5 is still free
afterwards. -/
theorem C2_failed_new_leaves_pin_free_witness :
    (5 : ℤ) ∉ (PwmPin.new ∅ (fun _ => -1) 5 1000 (F.fin 0) .Normal).2.1 ∧
    (PwmPin.new (PwmPin.new ∅ (fun _ => -1) 5 1000 (F.fin 0) .Normal).2.1
        (fun _ => 0) 5 1000 (F.fin 0) .Normal).1 ≠ .err .PinUsed :=
  C2_failed_new_leaves_pin_free ∅ (fun _ => -1) (fun _ => 0) 5 1000 1000
    (F.fin 0) (F.fin 0) .Normal .Normal .Unsupported (by decide) (by decide)

/-- Claim C3 as stated is false: when the first set-period call fails, the
duty-zero call succeeds, and the retried set-period call fails,
`PwmPin::new` (pwm.rs line 76) returns `InvalidArgument`, not the
`Unsupported` error the claim requires. -/
theorem C3_retry_error_counterexample :
    (PwmPin.new ∅ (fun k => if k = 0 then -1 else if k = 2 then -1 else 0)
        5 1000 (F.fin 0) .Normal).1 = .err .InvalidArgument ∧
    (PwmPin.new ∅ (fun k => if k = 0 then -1 else if k = 2 then -1 else 0)
        5 1000 (F.fin 0) .Normal).1 ≠ .err .Unsupported := by decide

/-- Claim C3 (amended): during construction, if the first set-period call
fails the constructor sets hardware duty to 0 and retries set-period; if
the duty-zero call fails it returns `Unsupported`, and if the retried
set-period call fails it returns `InvalidArgument` (not `Unsupported`). -/
theorem C3_period_fallback (reg : Finset ℤ) (o : Oracle) (n : ℤ) (per : ℕ)
    (d : F) (pol : Polarity) (hn : n ∉ reg) (h0 : o 0 < 0) :
    (o 1 < 0 →
      PwmPin.new reg o n per d pol =
        (.err .Unsupported, reg,
         [HwCall.setPeriod n (toI64 per), HwCall.setDuty n (toI64 0)])) ∧
    (0 ≤ o 1 → o 2 < 0 →
      PwmPin.new reg o n per d pol =
        (.err .InvalidArgument, reg,
         [HwCall.setPeriod n (toI64 per), HwCall.setDuty n (toI64 0),
          HwCall.setPeriod n (toI64 per)])) := by
  unfold PwmPin.new
  refine ⟨fun h1 => ?_, fun h1 h2 => ?_⟩ <;> split_ifs <;>
    first | rfl | omega | exact absurd (by assumption) hn

/-- Witness for C3 (amended): both fallback failure shapes at pin 5. -/
theorem C3_period_fallback_witness :
    (PwmPin.new ∅ (fun _ => -1) 5 1000 (F.fin 0) .Normal =
      (.err .Unsupported, ∅,
       [HwCall.setPeriod 5 (toI64 1000), HwCall.setDuty 5 (toI64 0)])) ∧
    (PwmPin.new ∅ (fun k => if k = 1 then 0 else -1) 5 1000 (F.fin 0)
        .Normal =
      (.err .InvalidArgument, ∅,
       [HwCall.setPeriod 5 (toI64 1000), HwCall.setDuty 5 (toI64 0),
        HwCall.setPeriod 5 (toI64 1000)])) :=
  ⟨(C3_period_fallback ∅ (fun _ => -1) 5 1000 (F.fin 0) .Normal (by decide)
      (by decide)).1 (by decide),
   (C3_period_fallback ∅ (fun k => if k = 1 then 0 else -1) 5 1000 (F.fin 0)
      .Normal (by decide) (by decide)).2 (by decide) (by decide)⟩

/-- Claim C4: `set_period` first issues the hardware duty call with the
duration computed (via `mulF`, the model of `Duration::mul_f32`) from the
existing cached duty-cycle fraction times the new period, and only then
the hardware set-period call; if either call fails it returns
`InvalidArgument` with the whole cached state (period, duty cycle,
polarity) unchanged; when both succeed the cached period becomes the new
period and nothing else changes. -/
theorem C4_set_period_order_and_cache (p : PwmPin) (o : Oracle) (per n : ℕ)
    (hm : mulF per p.duty_cycle = some n) :
    (0 ≤ o 0 → 0 ≤ o 1 →
      p.set_period o per =
        (.ok (), { p with period := per },
         [HwCall.setDuty p.number (toI64 n),
          HwCall.setPeriod p.number (toI64 per)])) ∧
    (o 0 < 0 →
      p.set_period o per =
        (.err .InvalidArgument, p, [HwCall.setDuty p.number (toI64 n)])) ∧
    (0 ≤ o 0 → o 1 < 0 →
      p.set_period o per =
        (.err .InvalidArgument, p,
         [HwCall.setDuty p.number (toI64 n),
          HwCall.setPeriod p.number (toI64 per)])) := by
  unfold PwmPin.set_period
  simp only [hm]
  refine ⟨fun h0 h1 => ?_, fun h0 => ?_, fun h0 h1 => ?_⟩ <;> split_ifs <;>
    first | rfl | omega

/-- Witness for C4: doubling the period of a pin with full duty cycle. -/
theorem C4_set_period_order_and_cache_witness :
    (PwmPin.set_period ⟨5, 1000, F.fin 1, .Normal⟩ (fun _ => 0) 2000 =
      (.ok (), ⟨5, 2000, F.fin 1, .Normal⟩,
       [HwCall.setDuty 5 (toI64 2000), HwCall.setPeriod 5 (toI64 2000)])) ∧
    (PwmPin.set_period ⟨5, 1000, F.fin 1, .Normal⟩ (fun _ => -1) 2000 =
      (.err .InvalidArgument, ⟨5, 1000, F.fin 1, .Normal⟩,
       [HwCall.setDuty 5 (toI64 2000)])) :=
  ⟨(C4_set_period_order_and_cache ⟨5, 1000, F.fin 1, .Normal⟩ (fun _ => 0)
      2000 2000 (by decide)).1 (by decide) (by decide),
   (C4_set_period_order_and_cache ⟨5, 1000, F.fin 1, .Normal⟩ (fun _ => -1)
      2000 2000 (by decide)).2.1 (by decide)⟩

/-- Claim C5: a successfully constructed `PwmPin` has its cached duty
cycle in [0, 1], and every sequence of `set_period`, `set_duty_cycle`
(with arbitrary modelled f32 arguments, including negative, above-one,
infinite and NaN ones) and `set_polarity` calls keeps it there. -/
theorem C5_duty_cycle_always_in01 (reg : Finset ℤ) (o : Oracle) (n : ℤ)
    (per : ℕ) (d : F) (pol : Polarity) (pin : PwmPin)
    (h : (PwmPin.new reg o n per d pol).1 = .ok pin)
    (ops : List (PwmOp × Oracle)) :
    (pin.run ops).duty_cycle.in01 = true :=
  run_in01 ops pin (new_ok_in01 reg o n per d pol pin h)

/-- Witness for C5: a pin built with duty 1, then driven with an
out-of-range, an infinite and a NaN duty request (the NaN one panics
before any cache update in the model, matching `Duration::mul_f32`). -/
theorem C5_duty_cycle_always_in01_witness :
    ((⟨5, 1000, F.fin 1, .Normal⟩ : PwmPin).run
        [(.opSetDuty (F.fin 7), fun _ => 0),
         (.opSetDuty (F.inf true), fun _ => 0),
         (.opSetDuty F.nan, fun _ => 0),
         (.opSetPeriod 400, fun _ => 0),
         (.opSetPolarity .Inversed, fun _ => 0)]).duty_cycle.in01 = true :=
  C5_duty_cycle_always_in01 ∅ (fun _ => 0) 5 1000 (F.fin 1) .Normal
    ⟨5, 1000, F.fin 1, .Normal⟩ (by decide)
    [(.opSetDuty (F.fin 7), fun _ => 0),
     (.opSetDuty (F.inf true), fun _ => 0),
     (.opSetDuty F.nan, fun _ => 0),
     (.opSetPeriod 400, fun _ => 0),
     (.opSetPolarity .Inversed, fun _ => 0)]

/-- Claim C6: when the hardware set-duty call fails (negative status)
inside `set_duty_cycle`, the call returns `InvalidArgument` and the pin —
in particular the cached duty-cycle fraction read back by `duty_cycle()` —
is exactly what it was before the call. -/
theorem C6_duty_fail_keeps_cache (p : PwmPin) (o : Oracle) (x : F) (n : ℕ)
    (hm : mulF p.period x.clamp01 = some n) (hf : o 0 < 0) :
    p.set_duty_cycle o x =
      (.err .InvalidArgument, p, [HwCall.setDuty p.number (toI64 n)]) ∧
    (p.set_duty_cycle o x).2.1.duty_cycle = p.duty_cycle := by
  unfold PwmPin.set_duty_cycle
  simp only [hm]
  rw [if_pos hf]
  exact ⟨rfl, rfl⟩

/-- Witness for C6: a failing duty call at duty request 2 (clamped to 1)
leaves the cached duty cycle at its previous value 0. -/
theorem C6_duty_fail_keeps_cache_witness :
    PwmPin.set_duty_cycle ⟨5, 1000, F.fin 0, .Normal⟩ (fun _ => -1)
        (F.fin 2) =
      (.err .InvalidArgument, ⟨5, 1000, F.fin 0, .Normal⟩,
       [HwCall.setDuty 5 (toI64 1000)]) ∧
    (PwmPin.set_duty_cycle ⟨5, 1000, F.fin 0, .Normal⟩ (fun _ => -1)
        (F.fin 2)).2.1.duty_cycle = F.fin 0 :=
  C6_duty_fail_keeps_cache ⟨5, 1000, F.fin 0, .Normal⟩ (fun _ => -1)
    (F.fin 2) 1000 (by decide) (by decide)

/-- Claim C7 as stated is false: `Pin::<Input>::read` maps only the raw
result 1 to `High`; the nonzero raw result 2 is mapped to `Low`, not
`High`. -/
theorem C7_read_counterexample :
    (2 : ℤ) ≠ 0 ∧
    (InputPin.read ⟨7⟩ (fun _ => 2)).1 = .Low ∧
    (InputPin.read ⟨7⟩ (fun _ => 2)).1 ≠ .High := by decide

/-- Claim C7 (amended): `Pin::<Input>::read` issues one hardware digital
read and maps the raw result 1 to `High` and every other raw result
(including every other nonzero one) to `Low`. -/
theorem C7_read_maps_one_to_high (p : InputPin) (o : Oracle) :
    p.read o =
      (if o 0 = 1 then Value.High else Value.Low,
       [HwCall.digitalRead p.number]) := rfl

/-- Claim C8: `wait_for_interrupt` returns `Ok` exactly when the hardware
status is positive; a zero or negative status yields `InterruptTimeOut`,
an error type distinct from `WiringXError`, hence distinguishable from
every other failure. -/
theorem C8_wait_for_interrupt_timeout (p : InputPin) (o : Oracle) (ms : ℕ) :
    ((p.wait_for_interrupt o ms).1 = .ok () ↔ 0 < o 0) ∧
    (o 0 ≤ 0 → (p.wait_for_interrupt o ms).1 = .error .mk) ∧
    (p.wait_for_interrupt o ms).2 =
      [HwCall.waitForInterrupt p.number (toI32 ms)] := by
  unfold InputPin.wait_for_interrupt
  refine ⟨?_, ?_, ?_⟩ <;> split_ifs with h <;> simp <;> omega

/-- Witness for C8 at a positive and at a zero hardware status. -/
theorem C8_wait_for_interrupt_timeout_witness :
    (InputPin.wait_for_interrupt ⟨3⟩ (fun _ => 1) 100).1 = .ok () ∧
    (InputPin.wait_for_interrupt ⟨3⟩ (fun _ => 0) 100).1 = .error .mk :=
  ⟨(C8_wait_for_interrupt_timeout ⟨3⟩ (fun _ => 1) 100).1.mpr (by decide),
   (C8_wait_for_interrupt_timeout ⟨3⟩ (fun _ => 0) 100).2.1 (by decide)⟩

/-- Claim C9: dropping a digital pin or a PWM pin removes its number from
the registry, so a subsequent claim on that number cannot fail with the
pin-in-use error; the PWM drop issues exactly one best-effort disable call
(`wiringXPWMEnable(n, 0)`) whose status is ignored (the result is the same
for every oracle). -/
theorem C9_drop_releases_registry (reg : Finset ℤ) (nD : ℤ) (p : PwmPin)
    (o o₂ : Oracle) (per : ℕ) (d : F) (pol : Polarity) :
    nD ∉ dropDigital reg nD ∧
    (p.dropHandle reg o).1 = reg.erase p.number ∧
    p.number ∉ (p.dropHandle reg o).1 ∧
    (p.dropHandle reg o).2 = [HwCall.pwmEnable p.number 0] ∧
    p.dropHandle reg o = p.dropHandle reg o₂ ∧
    (PwmPin.new (p.dropHandle reg o).1 o₂ p.number per d pol).1 ≠
      .err .PinUsed :=
  ⟨Finset.not_mem_erase nD reg, rfl, Finset.not_mem_erase p.number reg, rfl,
   rfl,
   new_fst_ne_pinUsed _ _ _ _ _ _ (Finset.not_mem_erase p.number reg)⟩

/-- Claim C10: `Pin::<Output>::read` and `toggle` do not depend on the
value cached by `write`: changing the cache changes neither of them,
`read` maps the hardware raw result (1 to `High`, else `Low`), and after
any `write(v)` the result of `read` is determined by the hardware raw
result alone, independent of `v`. -/
theorem C10_output_read_ignores_cache (p : OutputPin) (o : Oracle)
    (w : Value) :
    ({ p with value := w } : OutputPin).read o = p.read o ∧
    ({ p with value := w } : OutputPin).toggle o = p.toggle o ∧
    (p.read o).1 = (if o 0 = 1 then Value.High else Value.Low) ∧
    ∀ v : Value,
      (((p.write v).1).read o).1 =
        (if o 0 = 1 then Value.High else Value.Low) :=
  ⟨rfl, rfl, rfl, fun _ => rfl⟩

end WiringxRs
